import Mathlib

/-!
Verification of the Galatea Task/Stack lifecycle engine (Rust) against its
specification, via a shallow embedding in Lean 4.

The embedding models:
  * `src/task.rs` — `Task`, `ScriptType`, the lifecycle operations
    `install`, `uninstall`, `reset`, `remediate`, `check_installed`,
    `download`;
  * `src/stack.rs` — `Stack`, `check_installation_status`, `install`,
    `uninstall` (the member-iteration loops);
  * `src/downloader.rs` — the file-name derivation at the head of
    `download_file`;
  * `src/ui/components/selection.rs` — `MultiSelection`;
  * `src/ui/components/selectable_view.rs` — the batch loop of the
    "Install Selezionati" button.

External effects (HTTP download, child processes) are abstracted by an
environment `Env` of success oracles, and the state directory by an
association list from task name to state-file content.  Each lifecycle
operation additionally returns the list of external-execution events it
performed, mirroring the order of the executor calls in the source.
-/

namespace Galatea

/-- `ScriptType` from `src/task.rs`: Bash, Ansible or Mixed. -/
inductive ScriptType
  | Bash
  | Ansible
  | Mixed
deriving DecidableEq, Repr

/-- `Task` from `src/task.rs`.  `local_path` is `true` once the payload has
been materialized (the Rust field is `Option<PathBuf>`; only its presence
matters to the control flow, since `download` short-circuits on it). -/
structure Task where
  name : String
  script_type : ScriptType
  description : String := ""
  url : String := ""
  cleanup_command : Option String := none
  dependencies : List String := []
  tags : List String := []
  requires_reboot : Bool := false
  local_path : Bool := false
  installed : Bool := false
deriving DecidableEq, Repr

/-- The state directory: one entry per task name, holding the state-file
content (`state_dir/<name>.state` in the source). -/
abbrev StateDir := List (String × String)

/-- Content of the state file for `name`, `none` when the file is absent. -/
def readState (fs : StateDir) (name : String) : Option String :=
  (fs.find? (fun p => p.1 == name)).map (·.2)

/-- `fs::write` of the state file: create or overwrite. -/
def writeState (fs : StateDir) (name content : String) : StateDir :=
  (name, content) :: fs.filter (fun p => p.1 != name)

/-- `fs::remove_file` of the state file (a no-op when absent, as in
`Task::uninstall` which only removes an existing file). -/
def removeState (fs : StateDir) (name : String) : StateDir :=
  fs.filter (fun p => p.1 != name)

/-- Rust's `str::trim`: drop leading and trailing whitespace. -/
def strTrim (s : String) : String :=
  String.mk (((s.toList.dropWhile Char.isWhitespace).reverse.dropWhile
    Char.isWhitespace).reverse)

/-- The installed test of `Task::check_installed`: the state file exists and
its trimmed content is the literal `installed`. -/
def checkInstalledContent : Option String → Bool
  | some c => strTrim c == "installed"
  | none => false

/-- `Task::check_installed`: recompute `installed` from the state store. -/
def Task.check_installed (t : Task) (fs : StateDir) : Task :=
  { t with installed := checkInstalledContent (readState fs t.name) }

/-- Success oracles for the external world: HTTP download per task name,
`run_bash_script` / `run_ansible_playbook` per task name and phase, and
`run_command` per literal command. -/
structure Env where
  downloadOk : String → Bool
  bashOk : String → String → Bool
  ansibleOk : String → String → Bool
  cmdOk : String → Bool

/-- One external-execution event, in the order the executor is invoked. -/
inductive ExecEvent
  | download (name : String)
  | bash (name phase : String)
  | ansible (name tag : String)
  | cmd (c : String)
deriving DecidableEq, Repr

/-- The error values surfaced by the lifecycle code. -/
inductive GError
  | downloadFailed (name : String)
  | bashFailed (name phase : String)
  | ansibleFailed (name tag : String)
  | bothFailed (name phase : String)
  | cmdFailed (c : String)
  | notInstalled (name : String)
  | invalidSource (url : String)
  | stackFailed (failedCount total : Nat) (stackName : String) (failed : List String)
deriving DecidableEq, Repr

instance {ε α : Type} [DecidableEq ε] [DecidableEq α] : DecidableEq (Except ε α) :=
  fun a b =>
    match a, b with
    | .ok x, .ok y => if h : x = y then .isTrue (by rw [h]) else .isFalse (by simp [h])
    | .error x, .error y =>
      if h : x = y then .isTrue (by rw [h]) else .isFalse (by simp [h])
    | .ok _, .error _ => .isFalse (by simp)
    | .error _, .ok _ => .isFalse (by simp)

/-- Result of one Task lifecycle operation: outcome, the (possibly mutated)
task, the state directory, and the external executions performed. -/
structure OpResult where
  res : Except GError Unit
  task : Task
  fs : StateDir
  events : List ExecEvent
deriving Repr

/-- `Task::download`: returns at once when the payload is already local,
otherwise downloads (setting `local_path`) or fails. -/
def Task.download (env : Env) (t : Task) : Except GError Task × List ExecEvent :=
  if t.local_path then (.ok t, [])
  else if env.downloadOk t.name then
    (.ok { t with local_path := true }, [.download t.name])
  else
    (.error (.downloadFailed t.name), [.download t.name])

/-- The per-kind strategy dispatch shared by all four lifecycle phases in
`src/task.rs`: Bash runs the script, Ansible the playbook, and Mixed tries
the Ansible strategy first, falling back to Bash, erring only when both
fail (the `Both ansible and bash failed` context). -/
def runKindPhase (env : Env) (name : String) (st : ScriptType) (phase : String) :
    Except GError Unit × List ExecEvent :=
  match st with
  | .Bash =>
    if env.bashOk name phase then (.ok (), [.bash name phase])
    else (.error (.bashFailed name phase), [.bash name phase])
  | .Ansible =>
    if env.ansibleOk name phase then (.ok (), [.ansible name phase])
    else (.error (.ansibleFailed name phase), [.ansible name phase])
  | .Mixed =>
    if env.ansibleOk name phase then (.ok (), [.ansible name phase])
    else if env.bashOk name phase then
      (.ok (), [.ansible name phase, .bash name phase])
    else
      (.error (.bothFailed name phase), [.ansible name phase, .bash name phase])

/-- `Task::install` (`src/task.rs` lines 185-230): download, run the
`install` phase per kind, then write the state file and set `installed`.
The dependency check only logs a warning and has no effect. -/
def Task.install (env : Env) (t : Task) (fs : StateDir) : OpResult :=
  match t.download env with
  | (.error e, ev) => ⟨.error e, t, fs, ev⟩
  | (.ok t1, ev) =>
    match runKindPhase env t1.name t1.script_type "install" with
    | (.error e, ev2) => ⟨.error e, t1, fs, ev ++ ev2⟩
    | (.ok _, ev2) =>
      ⟨.ok (), { t1 with installed := true }, writeState fs t1.name "installed", ev ++ ev2⟩

/-- The uninstall execution step of `Task::uninstall`: in every `script_type`
arm the literal `cleanup_command` takes precedence when present, otherwise
the `uninstall` phase runs through the kind strategy. -/
def uninstallExec (env : Env) (t : Task) : Except GError Unit × List ExecEvent :=
  match t.cleanup_command with
  | some c =>
    if env.cmdOk c then (.ok (), [.cmd c]) else (.error (.cmdFailed c), [.cmd c])
  | none => runKindPhase env t.name t.script_type "uninstall"

/-- `Task::uninstall` (`src/task.rs` lines 233-293): require the installed
precondition, download, run cleanup or the `uninstall` phase, then remove
the state file and clear `installed`. -/
def Task.uninstall (env : Env) (t : Task) (fs : StateDir) : OpResult :=
  let t0 := t.check_installed fs
  if !t0.installed then ⟨.error (.notInstalled t0.name), t0, fs, []⟩
  else
    match t0.download env with
    | (.error e, ev) => ⟨.error e, t0, fs, ev⟩
    | (.ok t1, ev) =>
      match uninstallExec env t1 with
      | (.error e, ev2) => ⟨.error e, t1, fs, ev ++ ev2⟩
      | (.ok _, ev2) =>
        ⟨.ok (), { t1 with installed := false }, removeState fs t1.name, ev ++ ev2⟩

/-- `Task::reset` (`src/task.rs` lines 296-333): require installed, download,
run the `reset` phase; the state file is untouched. -/
def Task.reset (env : Env) (t : Task) (fs : StateDir) : OpResult :=
  let t0 := t.check_installed fs
  if !t0.installed then ⟨.error (.notInstalled t0.name), t0, fs, []⟩
  else
    match t0.download env with
    | (.error e, ev) => ⟨.error e, t0, fs, ev⟩
    | (.ok t1, ev) =>
      match runKindPhase env t1.name t1.script_type "reset" with
      | (.error e, ev2) => ⟨.error e, t1, fs, ev ++ ev2⟩
      | (.ok _, ev2) => ⟨.ok (), t1, fs, ev ++ ev2⟩

/-- `Task::remediate` (`src/task.rs` lines 336-373): require installed,
download, run the `remediate` phase; the state file is untouched. -/
def Task.remediate (env : Env) (t : Task) (fs : StateDir) : OpResult :=
  let t0 := t.check_installed fs
  if !t0.installed then ⟨.error (.notInstalled t0.name), t0, fs, []⟩
  else
    match t0.download env with
    | (.error e, ev) => ⟨.error e, t0, fs, ev⟩
    | (.ok t1, ev) =>
      match runKindPhase env t1.name t1.script_type "remediate" with
      | (.error e, ev2) => ⟨.error e, t1, fs, ev ++ ev2⟩
      | (.ok _, ev2) => ⟨.ok (), t1, fs, ev ++ ev2⟩

/-- `Stack` from `src/stack.rs`. -/
structure Stack where
  name : String
  description : String := ""
  task_names : List String
  requires_reboot : Bool := false
  tags : List String := []
  fully_installed : Bool := false
  partially_installed : Bool := false
deriving DecidableEq, Repr

/-- Lookup used throughout `src/stack.rs`: the `installed` flag of the first
task named `n`, `false` when no task carries that name. -/
def taskInstalledIn (tasks : List Task) (n : String) : Bool :=
  match tasks.find? (fun t => t.name == n) with
  | some t => t.installed
  | none => false

/-- The counting loop of `Stack::check_installation_status`: one count per
occurrence of a member name that resolves to an installed task. -/
def installedCount (tasks : List Task) (names : List String) : Nat :=
  (names.filter (fun n => taskInstalledIn tasks n)).length

/-- `Stack::check_installation_status` (`src/stack.rs` lines 100-124):
recompute the two derived flags; the only exit is `Ok`. -/
def Stack.check_installation_status (s : Stack) (tasks : List Task) :
    Except GError Stack :=
  let total := s.task_names.length
  if total = 0 then
    .ok { s with fully_installed := false, partially_installed := false }
  else
    let c := installedCount tasks s.task_names
    .ok { s with
          fully_installed := decide (c = total) && decide (0 < total),
          partially_installed := decide (0 < c) && decide (c < total) }

/-- `all_tasks.iter_mut().find(...)` followed by the member operation: apply
`op` to the first task named `n`, threading the state directory, and report
whether the operation succeeded; `none` when no task carries the name. -/
def opFirst (op : Task → StateDir → OpResult) (n : String) :
    List Task → StateDir → Option (List Task × StateDir × Bool)
  | [], _ => none
  | t :: ts, fs =>
    if t.name == n then
      let r := op t fs
      some (r.task :: ts, r.fs, r.res.isOk)
    else
      match opFirst op n ts fs with
      | none => none
      | some (ts', fs', ok) => some (t :: ts', fs', ok)

/-- The member loop shared by the Stack lifecycle methods: visit `names` in
order, record `failed_tasks` for a missing or failing member, continue
regardless.  Also returns the `(name, succeeded)` outcome per visited name,
in visiting order (a missing member counts as a failed outcome). -/
def stackOpLoop (op : Task → StateDir → OpResult) :
    List String → List Task → StateDir →
    List Task × StateDir × List String × List (String × Bool)
  | [], tasks, fs => (tasks, fs, [], [])
  | n :: rest, tasks, fs =>
    match opFirst op n tasks fs with
    | some (tasks', fs', ok) =>
      let r := stackOpLoop op rest tasks' fs'
      (r.1, r.2.1, (if ok then r.2.2.1 else n :: r.2.2.1), (n, ok) :: r.2.2.2)
    | none =>
      let r := stackOpLoop op rest tasks fs
      (r.1, r.2.1, n :: r.2.2.1, (n, false) :: r.2.2.2)

/-- Result of a Stack lifecycle operation. -/
structure StackOpResult where
  res : Except GError Unit
  stack : Stack
  tasks : List Task
  fs : StateDir
  failed : List String
  outcomes : List (String × Bool)
deriving Repr

/-- `Stack::install` (`src/stack.rs` lines 127-167): install each member in
declared order, recording failures; recompute the flags; err with the failed
names and counts when any member failed. -/
def Stack.install (env : Env) (s : Stack) (tasks : List Task) (fs : StateDir) :
    StackOpResult :=
  let r := stackOpLoop (Task.install env) s.task_names tasks fs
  match s.check_installation_status r.1 with
  | .error e => ⟨.error e, s, r.1, r.2.1, r.2.2.1, r.2.2.2⟩
  | .ok s' =>
    if r.2.2.1.isEmpty then ⟨.ok (), s', r.1, r.2.1, r.2.2.1, r.2.2.2⟩
    else
      ⟨.error (.stackFailed r.2.2.1.length s.task_names.length s.name r.2.2.1),
       s', r.1, r.2.1, r.2.2.1, r.2.2.2⟩

/-- `Stack::uninstall` (`src/stack.rs` lines 170-210): the same loop but over
`task_names` in reverse order, calling `Task::uninstall`. -/
def Stack.uninstall (env : Env) (s : Stack) (tasks : List Task) (fs : StateDir) :
    StackOpResult :=
  let r := stackOpLoop (Task.uninstall env) s.task_names.reverse tasks fs
  match s.check_installation_status r.1 with
  | .error e => ⟨.error e, s, r.1, r.2.1, r.2.2.1, r.2.2.2⟩
  | .ok s' =>
    if r.2.2.1.isEmpty then ⟨.ok (), s', r.1, r.2.1, r.2.2.1, r.2.2.2⟩
    else
      ⟨.error (.stackFailed r.2.2.1.length s.task_names.length s.name r.2.2.1),
       s', r.1, r.2.1, r.2.2.1, r.2.2.2⟩

/-- `MultiSelection` (`src/ui/components/selection.rs`): a `HashSet<usize>`
of selected indices, modelled as a finite set. -/
abbrev MultiSelection := Finset Nat

/-- `MultiSelection::toggle`: remove a selected index, insert an unselected
one. -/
def MultiSelection.toggle (s : MultiSelection) (i : Nat) : MultiSelection :=
  if i ∈ s then s.erase i else insert i s

/-- `MultiSelection::get_selected_indices`: the selected indices collected
into a vector and sorted ascending. -/
def MultiSelection.get_selected_indices (s : MultiSelection) : List Nat :=
  s.sort (· ≤ ·)

/-- The running tally of a batch operation: the success count and the
ordered list of `(index, message)` error entries. -/
structure BatchResult where
  success_count : Nat
  errors : List (Nat × String)
deriving Repr

/-- The batch loop behind the `Install Selezionati` button
(`src/ui/components/selectable_view.rs` lines 255-301): for each selected
index in order, look the unit up (a missing index records an error), skip it
silently when the applicability predicate fails, otherwise run the operation
— counting a success or recording an error — and continue regardless.
`op` returns the operation outcome together with the mutated unit and shared
state, which are threaded on. -/
def runBatch {U σ : Type} (can : U → Bool)
    (op : U → σ → (Except String Unit) × U × σ) :
    List Nat → List U → σ → BatchResult × List U × σ
  | [], items, st => (⟨0, []⟩, items, st)
  | idx :: rest, items, st =>
    match items[idx]? with
    | none =>
      let r := runBatch can op rest items st
      (⟨r.1.success_count, (idx, "not found") :: r.1.errors⟩, r.2.1, r.2.2)
    | some u =>
      if !can u then runBatch can op rest items st
      else
        match op u st with
        | (.ok _, u', st') =>
          let r := runBatch can op rest (items.set idx u') st'
          (⟨r.1.success_count + 1, r.1.errors⟩, r.2.1, r.2.2)
        | (.error e, u', st') =>
          let r := runBatch can op rest (items.set idx u') st'
          (⟨r.1.success_count, (idx, e) :: r.1.errors⟩, r.2.1, r.2.2)

/-- Rust's `str::split` on a separator character, over the character list of
the string: splitting always yields at least one (possibly empty) segment.
(`"a/b" → ["a","b"]`, `"" → [""]`, `"a/" → ["a",""]`.) -/
def splitOnChar (c : Char) : List Char → List (List Char)
  | [] => [[]]
  | x :: xs =>
    let r := splitOnChar c xs
    if x = c then [] :: r
    else
      match r with
      | [] => [[x]]
      | h :: t => (x :: h) :: t

/-- The file-name derivation at the head of `download_file`
(`src/downloader.rs` lines 36-38): `url.split('/').last()`, erring with the
`Invalid URL` error when the split yields no last segment. -/
def download_file_filename (url : List Char) : Except GError (List Char) :=
  match (splitOnChar '/' url).getLast? with
  | some f => .ok f
  | none => .error (.invalidSource (String.mk url))

/-! ### Helper lemmas -/

theorem readState_writeState (fs : StateDir) (n c : String) :
    readState (writeState fs n c) n = some c := by
  simp [readState, writeState, List.find?]

theorem readState_removeState (fs : StateDir) (n : String) :
    readState (removeState fs n) n = none := by
  induction fs with
  | nil => rfl
  | cons p fs ih =>
    by_cases h : p.1 = n
    · simp only [removeState] at ih ⊢
      simp [h, ih]
    · simp only [removeState] at ih ⊢
      simp [readState, List.find?, h]

theorem download_ok_fields (env : Env) (t t1 : Task) (ev : List ExecEvent)
    (h : t.download env = (.ok t1, ev)) :
    t1.name = t.name ∧ t1.script_type = t.script_type ∧
    t1.installed = t.installed ∧ t1.cleanup_command = t.cleanup_command := by
  unfold Task.download at h
  split at h
  · cases h; exact ⟨rfl, rfl, rfl, rfl⟩
  · split at h
    · cases h; exact ⟨rfl, rfl, rfl, rfl⟩
    · cases h

theorem check_installed_fields (t : Task) (fs : StateDir) :
    (t.check_installed fs).name = t.name ∧
    (t.check_installed fs).script_type = t.script_type ∧
    (t.check_installed fs).cleanup_command = t.cleanup_command ∧
    (t.check_installed fs).installed
      = checkInstalledContent (readState fs t.name) := by
  exact ⟨rfl, rfl, rfl, rfl⟩

/-! ### C1 — install/uninstall postconditions on the state store -/

/-- C1: a successful `Task::install` ends with the `installed` flag true and
the task's state file present with trimmed content exactly `installed`; a
successful `Task::uninstall` ends with `installed` false and the state file
absent. -/
theorem task_install_uninstall_state (env : Env) (t : Task) (fs : StateDir) :
    ((Task.install env t fs).res = .ok () →
      (Task.install env t fs).task.installed = true ∧
      readState (Task.install env t fs).fs t.name = some "installed" ∧
      checkInstalledContent (readState (Task.install env t fs).fs t.name) = true) ∧
    ((Task.uninstall env t fs).res = .ok () →
      (Task.uninstall env t fs).task.installed = false ∧
      readState (Task.uninstall env t fs).fs t.name = none) := by
  constructor
  · intro h
    unfold Task.install at *
    split at h
    · simp_all
    · rename_i t1 ev heq
      have hn := (download_ok_fields env t t1 ev heq).1
      split at h
      · simp_all
      · rename_i heq2
        refine ⟨rfl, ?_, ?_⟩ <;>
          simp [hn, readState_writeState, checkInstalledContent, strTrim]
  · intro h
    by_cases hinst : (t.check_installed fs).installed
    · rcases hd : Task.download env (t.check_installed fs) with ⟨rres, ev⟩
      cases rres with
      | error e => simp [Task.uninstall, hinst, hd] at h
      | ok t1 =>
        have hn := (download_ok_fields env _ t1 ev hd).1
        rcases he : uninstallExec env t1 with ⟨eres, ev2⟩
        cases eres with
        | error e => simp [Task.uninstall, hinst, hd, he] at h
        | ok u =>
          have hval : Task.uninstall env t fs =
              ⟨.ok (), { t1 with installed := false }, removeState fs t1.name,
               ev ++ ev2⟩ := by
            simp [Task.uninstall, hinst, hd, he]
          rw [hval]
          refine ⟨rfl, ?_⟩
          have hn0 : (t.check_installed fs).name = t.name := rfl
          simp only [hn, hn0]
          exact readState_removeState fs t.name
    · simp [Task.uninstall, hinst] at h

/-- Closed witness for C1 at a concrete task, environment and state store. -/
theorem task_install_uninstall_state_witness :
    ((Task.install ⟨fun _ => true, fun _ _ => true, fun _ _ => true, fun _ => true⟩
        { name := "a", script_type := .Bash } []).task.installed = true ∧
      readState (Task.install
        ⟨fun _ => true, fun _ _ => true, fun _ _ => true, fun _ => true⟩
        { name := "a", script_type := .Bash } []).fs "a" = some "installed" ∧
      checkInstalledContent (readState (Task.install
        ⟨fun _ => true, fun _ _ => true, fun _ _ => true, fun _ => true⟩
        { name := "a", script_type := .Bash } []).fs "a") = true) ∧
    ((Task.uninstall ⟨fun _ => true, fun _ _ => true, fun _ _ => true, fun _ => true⟩
        { name := "a", script_type := .Bash } [("a", "installed")]).task.installed = false ∧
      readState (Task.uninstall
        ⟨fun _ => true, fun _ _ => true, fun _ _ => true, fun _ => true⟩
        { name := "a", script_type := .Bash } [("a", "installed")]).fs "a" = none) := by
  refine ⟨(task_install_uninstall_state _ _ _).1 (by decide),
          (task_install_uninstall_state _ _ _).2 (by decide)⟩

/-! ### C2 — a failing install leaves the task NotInstalled -/

/-- C2: when `Task::install` returns an error (download failure or a failure
of the install-phase execution), the state store is unchanged — so no state
file is created for the task — and the `installed` flag stays `false`. -/
theorem task_install_error_not_installed (env : Env) (t : Task) (fs : StateDir)
    (e : GError) (h : (Task.install env t fs).res = .error e)
    (h1 : t.installed = false) :
    (Task.install env t fs).fs = fs ∧
    (Task.install env t fs).task.installed = false := by
  unfold Task.install at *
  split at h
  · simp_all
  · rename_i t1 ev heq
    have hi := (download_ok_fields env t t1 ev heq).2.2.1
    split at h
    · exact ⟨rfl, by simp_all⟩
    · simp_all

/-- Closed witness for C2: an `ansible` task whose playbook exits nonzero. -/
theorem task_install_error_not_installed_witness :
    (Task.install ⟨fun _ => true, fun _ _ => false, fun _ _ => false, fun _ => true⟩
        { name := "b", script_type := .Ansible } []).fs = [] ∧
    (Task.install ⟨fun _ => true, fun _ _ => false, fun _ _ => false, fun _ => true⟩
        { name := "b", script_type := .Ansible } []).task.installed = false :=
  task_install_error_not_installed _ _ _ (.ansibleFailed "b" "install")
    (by decide) (by decide)

/-! ### C3 — derived Stack flags -/

/-- C3: after `Stack::check_installation_status`, an empty member list gives
both derived flags `false`; otherwise `fully_installed` holds iff the count
of installed members equals the member count and `partially_installed`
holds iff that count lies strictly between `0` and the member count; the
two flags are never both true. -/
theorem check_installation_status_flags (s : Stack) (tasks : List Task)
    (s' : Stack) (h : s.check_installation_status tasks = .ok s') :
    (s.task_names = [] →
      s'.fully_installed = false ∧ s'.partially_installed = false) ∧
    (s.task_names ≠ [] →
      ((s'.fully_installed = true ↔
          installedCount tasks s.task_names = s.task_names.length) ∧
       (s'.partially_installed = true ↔
          0 < installedCount tasks s.task_names ∧
          installedCount tasks s.task_names < s.task_names.length))) ∧
    ¬(s'.fully_installed = true ∧ s'.partially_installed = true) := by
  unfold Stack.check_installation_status at h
  by_cases h0 : s.task_names.length = 0
  · rw [if_pos h0, Except.ok.injEq] at h
    subst h
    have : s.task_names = [] := List.length_eq_zero.mp h0
    simp [this]
  · rw [if_neg h0, Except.ok.injEq] at h
    subst h
    have hne : s.task_names ≠ [] := fun hh => h0 (by simp [hh])
    refine ⟨fun hh => absurd hh hne, fun _ => ⟨?_, ?_⟩, ?_⟩ <;>
      simp <;> omega

/-- Closed witness for C3: the scenario stack with one of two members
installed is partially and not fully installed. -/
theorem check_installation_status_flags_witness :
    ({ name := "S", task_names := ["A", "B"], fully_installed := false,
       partially_installed := true } : Stack).partially_installed = true ∧
    ¬(({ name := "S", task_names := ["A", "B"], fully_installed := false,
         partially_installed := true } : Stack).fully_installed = true ∧
      ({ name := "S", task_names := ["A", "B"], fully_installed := false,
         partially_installed := true } : Stack).partially_installed = true) := by
  have h := check_installation_status_flags
    { name := "S", task_names := ["A", "B"] }
    [{ name := "A", script_type := .Bash, installed := true },
     { name := "B", script_type := .Bash }]
    { name := "S", task_names := ["A", "B"], fully_installed := false,
      partially_installed := true } (by decide)
  exact ⟨((h.2.1 (by decide)).2).mpr (by decide), h.2.2⟩

/-! ### C4 — Mixed-kind fallback -/

/-- C4: for a Mixed task and any phase, the kind strategy attempts Ansible
first, attempts Bash exactly when the Ansible attempt fails, fails iff both
attempts fail, and surfaces the failure as the both-paths-failed error. -/
theorem mixed_fallback (env : Env) (name phase : String) :
    ((runKindPhase env name .Mixed phase).2.head?
        = some (.ansible name phase)) ∧
    ((ExecEvent.bash name phase) ∈ (runKindPhase env name .Mixed phase).2
        ↔ env.ansibleOk name phase = false) ∧
    ((runKindPhase env name .Mixed phase).1.isOk = false
        ↔ (env.ansibleOk name phase = false ∧ env.bashOk name phase = false)) ∧
    (env.ansibleOk name phase = false → env.bashOk name phase = false →
      (runKindPhase env name .Mixed phase).1
        = .error (.bothFailed name phase)) := by
  unfold runKindPhase
  by_cases ha : env.ansibleOk name phase <;>
    by_cases hb : env.bashOk name phase <;>
      simp [ha, hb, Except.isOk, Except.toBool]

/-- Closed witness for C4: with both strategies failing, the Mixed kind
surfaces the both-paths-failed error. -/
theorem mixed_fallback_witness :
    (runKindPhase ⟨fun _ => false, fun _ _ => false, fun _ _ => false, fun _ => false⟩
        "x" .Mixed "install").1 = .error (.bothFailed "x" "install") :=
  (mixed_fallback _ "x" "install").2.2.2 (by decide) (by decide)

/-! ### C5 — precondition of uninstall/reset/remediate -/

/-- C5: on a task that is not installed (no state file with trimmed content
`installed`), each of `uninstall`, `reset` and `remediate` returns the
not-installed error, leaves the state store unchanged and performs no
external execution at all. -/
theorem not_installed_precondition (env : Env) (t : Task) (fs : StateDir)
    (h : checkInstalledContent (readState fs t.name) = false) :
    ((Task.uninstall env t fs).res = .error (.notInstalled t.name) ∧
      (Task.uninstall env t fs).events = [] ∧
      (Task.uninstall env t fs).fs = fs) ∧
    ((Task.reset env t fs).res = .error (.notInstalled t.name) ∧
      (Task.reset env t fs).events = [] ∧
      (Task.reset env t fs).fs = fs) ∧
    ((Task.remediate env t fs).res = .error (.notInstalled t.name) ∧
      (Task.remediate env t fs).events = [] ∧
      (Task.remediate env t fs).fs = fs) := by
  have h0 : (t.check_installed fs).installed = false := h
  refine ⟨?_, ?_, ?_⟩ <;>
    simp [Task.uninstall, Task.reset, Task.remediate, h0, Task.check_installed, h]

/-- Closed witness for C5 at a concrete not-installed task. -/
theorem not_installed_precondition_witness :
    ((Task.uninstall ⟨fun _ => true, fun _ _ => true, fun _ _ => true, fun _ => true⟩
        { name := "a", script_type := .Bash } []).res = .error (.notInstalled "a") ∧
      (Task.uninstall ⟨fun _ => true, fun _ _ => true, fun _ _ => true, fun _ => true⟩
        { name := "a", script_type := .Bash } []).events = [] ∧
      (Task.uninstall ⟨fun _ => true, fun _ _ => true, fun _ _ => true, fun _ => true⟩
        { name := "a", script_type := .Bash } []).fs = []) ∧
    ((Task.reset ⟨fun _ => true, fun _ _ => true, fun _ _ => true, fun _ => true⟩
        { name := "a", script_type := .Bash } []).res = .error (.notInstalled "a") ∧
      (Task.reset ⟨fun _ => true, fun _ _ => true, fun _ _ => true, fun _ => true⟩
        { name := "a", script_type := .Bash } []).events = [] ∧
      (Task.reset ⟨fun _ => true, fun _ _ => true, fun _ _ => true, fun _ => true⟩
        { name := "a", script_type := .Bash } []).fs = []) ∧
    ((Task.remediate ⟨fun _ => true, fun _ _ => true, fun _ _ => true, fun _ => true⟩
        { name := "a", script_type := .Bash } []).res = .error (.notInstalled "a") ∧
      (Task.remediate ⟨fun _ => true, fun _ _ => true, fun _ _ => true, fun _ => true⟩
        { name := "a", script_type := .Bash } []).events = [] ∧
      (Task.remediate ⟨fun _ => true, fun _ _ => true, fun _ _ => true, fun _ => true⟩
        { name := "a", script_type := .Bash } []).fs = []) :=
  not_installed_precondition _ { name := "a", script_type := .Bash } [] (by decide)

/-! ### C10 — check_installation_status is total; absent members count as
not installed -/

/-- C10: `Stack::check_installation_status` always returns `Ok`; a member
name with no task of that name in the collection counts as not installed;
in particular a non-empty stack all of whose members are absent ends with
both derived flags `false`. -/
theorem check_installation_status_total (s : Stack) (tasks : List Task) :
    ((s.check_installation_status tasks).isOk = true) ∧
    (∀ n, (∀ t ∈ tasks, t.name ≠ n) → taskInstalledIn tasks n = false) ∧
    (∀ s', s.task_names ≠ [] →
      (∀ n ∈ s.task_names, ∀ t ∈ tasks, t.name ≠ n) →
      s.check_installation_status tasks = .ok s' →
      s'.fully_installed = false ∧ s'.partially_installed = false) := by
  have habs : ∀ n, (∀ t ∈ tasks, t.name ≠ n) → taskInstalledIn tasks n = false := by
    intro n hn
    unfold taskInstalledIn
    have : tasks.find? (fun t => t.name == n) = none := by
      rw [List.find?_eq_none]
      intro t ht
      simpa using hn t ht
    rw [this]
  refine ⟨?_, habs, ?_⟩
  · unfold Stack.check_installation_status
    by_cases h0 : s.task_names.length = 0 <;> simp [h0, Except.isOk, Except.toBool]
  · intro s' hne hall h
    have hc : installedCount tasks s.task_names = 0 := by
      unfold installedCount
      have : s.task_names.filter (fun n => taskInstalledIn tasks n) = [] := by
        rw [List.filter_eq_nil_iff]
        intro n hn
        simp [habs n (hall n hn)]
      rw [this]
      rfl
    unfold Stack.check_installation_status at h
    have h0 : ¬s.task_names.length = 0 := fun hh => hne (List.length_eq_zero.mp hh)
    rw [if_neg h0, Except.ok.injEq] at h
    subst h
    simp [hc]
    intro hh
    exact absurd (List.length_eq_zero.mp hh.symm) hne

/-- Closed witness for C10 at a one-member stack over an empty collection. -/
theorem check_installation_status_total_witness :
    (({ name := "s", task_names := ["a"] } : Stack).check_installation_status
        []).isOk = true ∧
    ({ name := "s", task_names := ["a"] } : Stack).fully_installed = false ∧
    ({ name := "s", task_names := ["a"] } : Stack).partially_installed = false := by
  have h := check_installation_status_total
    ({ name := "s", task_names := ["a"] } : Stack) []
  exact ⟨h.1, h.2.2 { name := "s", task_names := ["a"] } (by decide)
    (by intro n hn t ht; cases ht) (by decide)⟩

/-! ### C9 — file-name derivation in download_file -/

theorem splitOnChar_ne_nil (c : Char) (l : List Char) : splitOnChar c l ≠ [] := by
  induction l with
  | nil => simp [splitOnChar]
  | cons x xs ih =>
    unfold splitOnChar
    by_cases h : x = c
    · simp [h]
    · simp only [if_neg h]
      match hr : splitOnChar c xs with
      | [] => simp
      | h' :: t => simp

/-- C9 (amended): splitting the URL on `/` always yields a last — possibly
empty — segment, so `download_file` never takes the `InvalidSource` branch:
the file name is the substring after the last `/`, the empty string for a
URL ending in `/`. -/
theorem download_file_filename_never_invalid (url : List Char) :
    ∃ f, download_file_filename url = .ok f := by
  unfold download_file_filename
  match hl : (splitOnChar '/' url).getLast? with
  | some f => exact ⟨f, rfl⟩
  | none =>
    exact absurd (List.getLast?_eq_none_iff.mp hl) (splitOnChar_ne_nil '/' url)

/-- C9 counterexample: the URL `http://x/` has no trailing path segment
(it ends in `/`), yet the file-name derivation succeeds with the empty
file name instead of returning the `InvalidSource` error. -/
theorem download_file_filename_cex :
    ("http://x/".toList).getLast? = some '/' ∧
    download_file_filename ("http://x/".toList) = .ok [] := by
  exact ⟨by decide, by decide⟩

/-! ### C7 — Stack uninstall order is the reverse of install order -/

theorem stackOpLoop_visits (op : Task → StateDir → OpResult) (names : List String)
    (tasks : List Task) (fs : StateDir) :
    ((stackOpLoop op names tasks fs).2.2.2).map Prod.fst = names := by
  induction names generalizing tasks fs with
  | nil => rfl
  | cons n rest ih =>
    unfold stackOpLoop
    match h : opFirst op n tasks fs with
    | some (tasks', fs', ok) => simp [h, ih]
    | none => simp [h, ih]

theorem stack_install_outcomes (env : Env) (s : Stack) (tasks : List Task)
    (fs : StateDir) :
    (Stack.install env s tasks fs).outcomes
      = (stackOpLoop (Task.install env) s.task_names tasks fs).2.2.2 := by
  unfold Stack.install
  dsimp only
  split <;> try rfl
  split <;> rfl

theorem stack_uninstall_outcomes (env : Env) (s : Stack) (tasks : List Task)
    (fs : StateDir) :
    (Stack.uninstall env s tasks fs).outcomes
      = (stackOpLoop (Task.uninstall env) s.task_names.reverse tasks fs).2.2.2 := by
  unfold Stack.uninstall
  dsimp only
  split <;> try rfl
  split <;> rfl

/-- C7: `Stack::uninstall` visits the member names in exactly the reverse of
the order in which `Stack::install` visits them — install iterates
`task_names` in declared order, uninstall in reverse order — whatever the
states the two operations run against. -/
theorem stack_uninstall_reverse_order (env env2 : Env) (s : Stack)
    (tasks tasks2 : List Task) (fs fs2 : StateDir) :
    (Stack.uninstall env s tasks fs).outcomes.map Prod.fst
      = ((Stack.install env2 s tasks2 fs2).outcomes.map Prod.fst).reverse ∧
    (Stack.install env2 s tasks2 fs2).outcomes.map Prod.fst = s.task_names := by
  rw [stack_install_outcomes, stack_uninstall_outcomes, stackOpLoop_visits,
    stackOpLoop_visits]
  exact ⟨rfl, rfl⟩

/-! ### C6 — batch tally over the selected indices -/

/-- The skip predicate of the batch loop against a fixed unit list: a
selected index is skipped when it resolves to a unit whose applicability
predicate is `false`. -/
def skippedPred {U : Type} (can : U → Bool) (items : List U) (i : Nat) : Bool :=
  match items[i]? with
  | some u => !can u
  | none => false

theorem runBatch_tally_sorted {U σ : Type} (can : U → Bool)
    (op : U → σ → (Except String Unit) × U × σ)
    (selected : List Nat) (items : List U) (st : σ)
    (hs : List.Sorted (· < ·) selected) :
    (runBatch can op selected items st).1.success_count
      + (runBatch can op selected items st).1.errors.length
      + (selected.filter (skippedPred can items)).length
      = selected.length := by
  induction selected generalizing items st with
  | nil => rfl
  | cons idx rest ih =>
    have hrest : List.Sorted (· < ·) rest := hs.of_cons
    have hgt : ∀ j ∈ rest, idx < j := fun j hj => List.rel_of_sorted_cons hs j hj
    have hset : ∀ (u' : U), rest.filter (skippedPred can (items.set idx u'))
        = rest.filter (skippedPred can items) := by
      intro u'
      refine List.filter_congr fun j hj => ?_
      have hne : idx ≠ j := Nat.ne_of_lt (hgt j hj)
      simp [skippedPred, List.getElem?_set_ne hne]
    match hl : items[idx]? with
    | none =>
      have hsk : skippedPred can items idx = false := by simp [skippedPred, hl]
      simp only [runBatch, hl]
      have := ih items st hrest
      simp [List.filter_cons, hsk]
      omega
    | some u =>
      by_cases hc : can u
      · match hop : op u st with
        | (.ok v, u', st') =>
          have hsk : skippedPred can items idx = false := by
            simp [skippedPred, hl, hc]
          simp only [runBatch, hl, hop]
          have := ih (items.set idx u') st' hrest
          rw [hset u'] at this
          simp [List.filter_cons, hsk, hc]
          omega
        | (.error e, u', st') =>
          have hsk : skippedPred can items idx = false := by
            simp [skippedPred, hl, hc]
          simp only [runBatch, hl, hop]
          have := ih (items.set idx u') st' hrest
          rw [hset u'] at this
          simp [List.filter_cons, hsk, hc]
          omega
      · have hsk : skippedPred can items idx = true := by
          simp [skippedPred, hl, hc]
        simp only [runBatch, hl]
        have := ih items st hrest
        simp [List.filter_cons, hsk, hc]
        omega

/-- C6: a batch operation processes the selected indices in strictly
ascending order (`get_selected_indices` sorts the selection, whose size the
sorted list preserves); a selected unit whose applicability predicate is
false is skipped, counting as neither success nor failure, and every other
selected unit contributes exactly one success or one error entry, so
`success_count + errors + skipped` equals the number of selected indices. -/
theorem batch_tally {U σ : Type} (sel : Finset Nat) (can : U → Bool)
    (op : U → σ → (Except String Unit) × U × σ) (items : List U) (st : σ) :
    List.Sorted (· < ·) (MultiSelection.get_selected_indices sel) ∧
    (MultiSelection.get_selected_indices sel).length = sel.card ∧
    (runBatch can op (MultiSelection.get_selected_indices sel) items st).1.success_count
      + (runBatch can op (MultiSelection.get_selected_indices sel) items st).1.errors.length
      + ((MultiSelection.get_selected_indices sel).filter (skippedPred can items)).length
      = (MultiSelection.get_selected_indices sel).length :=
  ⟨Finset.sort_sorted_lt sel, Finset.length_sort _,
   runBatch_tally_sorted can op _ items st (Finset.sort_sorted_lt sel)⟩

/-! ### C8 — the Stack install contract -/

/-- What one `Task::install` call can do to a task in the collection: the
name is preserved and an installed task never becomes uninstalled. -/
def InstallPreserves (a b : Task) : Prop :=
  b.name = a.name ∧ (a.installed = true → b.installed = true)

theorem installPreserves_refl (l : List Task) :
    List.Forall₂ InstallPreserves l l :=
  List.forall₂_same.mpr (fun _ _ => ⟨rfl, fun h => h⟩)

theorem installPreserves_trans {a b c : List Task}
    (h1 : List.Forall₂ InstallPreserves a b)
    (h2 : List.Forall₂ InstallPreserves b c) :
    List.Forall₂ InstallPreserves a c := by
  induction h1 generalizing c with
  | nil => cases h2; exact .nil
  | cons hab _ ih =>
    cases h2 with
    | cons hbc h2 => exact .cons ⟨hbc.1.trans hab.1, fun h => hbc.2 (hab.2 h)⟩ (ih h2)

theorem task_install_preserves (env : Env) (t : Task) (fs : StateDir) :
    InstallPreserves t (Task.install env t fs).task := by
  rcases hd : t.download env with ⟨rres, ev⟩
  cases rres with
  | error e => simp only [Task.install, hd]; exact ⟨rfl, fun h => h⟩
  | ok t1 =>
    have hf := download_ok_fields env t t1 ev hd
    rcases hk : runKindPhase env t1.name t1.script_type "install" with ⟨kres, ev2⟩
    cases kres with
    | error e =>
      simp only [Task.install, hd, hk]
      exact ⟨hf.1, fun h => by rw [hf.2.2.1]; exact h⟩
    | ok u =>
      simp only [Task.install, hd, hk]
      exact ⟨hf.1, fun _ => rfl⟩

theorem task_install_isOk_installed (env : Env) (t : Task) (fs : StateDir)
    (h : (Task.install env t fs).res.isOk = true) :
    (Task.install env t fs).task.installed = true := by
  rcases hd : t.download env with ⟨rres, ev⟩
  cases rres with
  | error e => simp [Task.install, hd, Except.isOk, Except.toBool] at h
  | ok t1 =>
    rcases hk : runKindPhase env t1.name t1.script_type "install" with ⟨kres, ev2⟩
    cases kres with
    | error e => simp [Task.install, hd, hk, Except.isOk, Except.toBool] at h
    | ok u => simp [Task.install, hd, hk]

theorem taskInstalledIn_cons (x : Task) (l : List Task) (n : String) :
    taskInstalledIn (x :: l) n
      = if x.name == n then x.installed else taskInstalledIn l n := by
  unfold taskInstalledIn
  by_cases h : (x.name == n) = true <;> simp [List.find?_cons, h]

theorem preserves_taskInstalledIn {a b : List Task}
    (hab : List.Forall₂ InstallPreserves a b) (n : String)
    (h : taskInstalledIn a n = true) : taskInstalledIn b n = true := by
  induction hab with
  | nil => simp [taskInstalledIn] at h
  | @cons x y l1 l2 hxy _ ih =>
    rw [taskInstalledIn_cons] at h
    rw [taskInstalledIn_cons, hxy.1]
    by_cases hn : (x.name == n) = true
    · rw [if_pos hn] at h
      rw [if_pos hn]
      exact hxy.2 h
    · rw [if_neg hn] at h
      rw [if_neg hn]
      exact ih h

theorem preserves_absent {a b : List Task}
    (hab : List.Forall₂ InstallPreserves a b) (n : String)
    (h : ∀ t ∈ a, t.name ≠ n) : ∀ t ∈ b, t.name ≠ n := by
  induction hab with
  | nil => exact h
  | @cons x y l1 l2 hxy _ ih =>
    intro t ht
    rcases List.mem_cons.mp ht with rfl | ht
    · rw [hxy.1]
      exact h x (List.mem_cons_self x l1)
    · exact ih (fun u hu => h u (List.mem_cons_of_mem x hu)) t ht

theorem opFirst_none_of_absent (op : Task → StateDir → OpResult) (n : String)
    (tasks : List Task) (fs : StateDir) (h : ∀ t ∈ tasks, t.name ≠ n) :
    opFirst op n tasks fs = none := by
  induction tasks generalizing fs with
  | nil => rfl
  | cons t ts ih =>
    have hn : (t.name == n) = false := by
      simpa using h t (List.mem_cons_self t ts)
    unfold opFirst
    rw [if_neg (by simp [hn])]
    rw [ih fs (fun u hu => h u (List.mem_cons_of_mem t hu))]

theorem opFirst_install_preserves (env : Env) (n : String) (tasks : List Task)
    (fs : StateDir) (tasks' : List Task) (fs' : StateDir) (ok : Bool)
    (h : opFirst (Task.install env) n tasks fs = some (tasks', fs', ok)) :
    List.Forall₂ InstallPreserves tasks tasks' := by
  induction tasks generalizing fs tasks' fs' ok with
  | nil => simp [opFirst] at h
  | cons t ts ih =>
    unfold opFirst at h
    by_cases hn : (t.name == n) = true
    · rw [if_pos hn] at h
      cases h
      exact .cons (task_install_preserves env t fs) (installPreserves_refl ts)
    · rw [if_neg hn] at h
      match hrec : opFirst (Task.install env) n ts fs with
      | none => rw [hrec] at h; cases h
      | some (ts2, fs2, ok2) =>
        rw [hrec] at h
        simp only [Option.some.injEq, Prod.mk.injEq] at h
        obtain ⟨h1, h2, h3⟩ := h
        subst h1
        exact .cons ⟨rfl, fun hh => hh⟩ (ih fs ts2 fs2 ok2 hrec)

theorem opFirst_install_true_installed (env : Env) (n : String)
    (tasks : List Task) (fs : StateDir) (tasks' : List Task) (fs' : StateDir)
    (h : opFirst (Task.install env) n tasks fs = some (tasks', fs', true)) :
    taskInstalledIn tasks' n = true := by
  induction tasks generalizing fs tasks' fs' with
  | nil => simp [opFirst] at h
  | cons t ts ih =>
    unfold opFirst at h
    by_cases hn : (t.name == n) = true
    · rw [if_pos hn] at h
      simp only [Option.some.injEq, Prod.mk.injEq] at h
      obtain ⟨h1, h2, h3⟩ := h
      subst h1
      have hinst := task_install_isOk_installed env t fs h3
      have hname := (task_install_preserves env t fs).1
      rw [taskInstalledIn_cons, hname, if_pos hn]
      exact hinst
    · rw [if_neg hn] at h
      match hrec : opFirst (Task.install env) n ts fs with
      | none => rw [hrec] at h; cases h
      | some (ts2, fs2, ok2) =>
        rw [hrec] at h
        simp only [Option.some.injEq, Prod.mk.injEq] at h
        obtain ⟨h1, h2, h3⟩ := h
        subst h1 h3
        rw [taskInstalledIn_cons, if_neg hn]
        exact ih fs ts2 fs2 hrec

theorem stackOpLoop_install_preserves (env : Env) (names : List String)
    (tasks : List Task) (fs : StateDir) :
    List.Forall₂ InstallPreserves tasks
      (stackOpLoop (Task.install env) names tasks fs).1 := by
  induction names generalizing tasks fs with
  | nil => exact installPreserves_refl tasks
  | cons m rest ih =>
    unfold stackOpLoop
    match hop : opFirst (Task.install env) m tasks fs with
    | some (tasks', fs', ok) =>
      simp only [hop]
      exact installPreserves_trans
        (opFirst_install_preserves env m tasks fs tasks' fs' ok hop) (ih tasks' fs')
    | none =>
      simp only [hop]
      exact ih tasks fs

theorem stackOpLoop_failed_eq_outcomes (op : Task → StateDir → OpResult)
    (names : List String) (tasks : List Task) (fs : StateDir) :
    (stackOpLoop op names tasks fs).2.2.1
      = ((stackOpLoop op names tasks fs).2.2.2.filter
          (fun p => p.2 == false)).map Prod.fst := by
  induction names generalizing tasks fs with
  | nil => rfl
  | cons m rest ih =>
    unfold stackOpLoop
    match hop : opFirst op m tasks fs with
    | some (tasks', fs', ok) =>
      cases ok <;> simp [hop, ih]
    | none =>
      simp [hop, ih]

theorem stackOpLoop_absent_failed (env : Env) (names : List String)
    (tasks : List Task) (fs : StateDir) (n : String) (hmem : n ∈ names)
    (habs : ∀ t ∈ tasks, t.name ≠ n) :
    n ∈ (stackOpLoop (Task.install env) names tasks fs).2.2.1 := by
  induction names generalizing tasks fs with
  | nil => cases hmem
  | cons m rest ih =>
    rcases List.mem_cons.mp hmem with rfl | hrest
    · have hop := opFirst_none_of_absent (Task.install env) n tasks fs habs
      unfold stackOpLoop
      simp only [hop]
      exact List.mem_cons_self _ _
    · unfold stackOpLoop
      match hop : opFirst (Task.install env) m tasks fs with
      | some (tasks', fs', ok) =>
        have habs' := preserves_absent
          (opFirst_install_preserves env m tasks fs tasks' fs' ok hop) n habs
        have hin := ih tasks' fs' hrest habs'
        cases ok
        · simpa [hop] using List.mem_cons_of_mem m hin
        · simpa [hop] using hin
      | none =>
        have hin := ih tasks fs hrest habs
        simp only [hop]
        exact List.mem_cons_of_mem m hin

theorem stackOpLoop_outcome_installed (env : Env) (names : List String)
    (tasks : List Task) (fs : StateDir) (n : String)
    (h : (n, true) ∈ (stackOpLoop (Task.install env) names tasks fs).2.2.2) :
    taskInstalledIn (stackOpLoop (Task.install env) names tasks fs).1 n = true := by
  induction names generalizing tasks fs with
  | nil => cases h
  | cons m rest ih =>
    unfold stackOpLoop at h ⊢
    match hop : opFirst (Task.install env) m tasks fs with
    | some (tasks', fs', ok) =>
      simp only [hop] at h ⊢
      rcases List.mem_cons.mp h with heq | hrest
    -- head outcome: this member's own install succeeded
      · have h1 : n = m := congrArg Prod.fst heq
        have h2 : ok = true := (congrArg Prod.snd heq).symm
        subst h1 h2
        have hbase := opFirst_install_true_installed env n tasks fs tasks' fs' hop
        exact preserves_taskInstalledIn
          (stackOpLoop_install_preserves env rest tasks' fs') n hbase
      · exact ih tasks' fs' hrest
    | none =>
      simp only [hop] at h ⊢
      rcases List.mem_cons.mp h with heq | hrest
      · cases (Prod.mk.injEq .. ▸ heq).2
      · exact ih tasks fs hrest

theorem check_status_always_ok (s : Stack) (tasks : List Task) :
    ∃ s', s.check_installation_status tasks = .ok s' := by
  unfold Stack.check_installation_status
  by_cases h0 : s.task_names.length = 0
  · rw [if_pos h0]; exact ⟨_, rfl⟩
  · rw [if_neg h0]; exact ⟨_, rfl⟩

/-- C8: in `Stack::install`, a member name missing from the collection is
recorded as a failure, the recorded failures are exactly the members whose
processing failed, processing continues to the end (the outcome list covers
every member), the derived flags are recomputed over the final collection,
the call errs iff at least one member failed — the error carrying the
failed names and their count — and a member whose install succeeded is
installed in the final collection. -/
theorem stack_install_contract (env : Env) (s : Stack) (tasks : List Task)
    (fs : StateDir) :
    ((Stack.install env s tasks fs).res =
      if (Stack.install env s tasks fs).failed = [] then .ok ()
      else .error (.stackFailed (Stack.install env s tasks fs).failed.length
        s.task_names.length s.name (Stack.install env s tasks fs).failed)) ∧
    (∀ n ∈ s.task_names, (∀ t ∈ tasks, t.name ≠ n) →
      n ∈ (Stack.install env s tasks fs).failed) ∧
    ((Stack.install env s tasks fs).failed
      = ((Stack.install env s tasks fs).outcomes.filter
          (fun p => p.2 == false)).map Prod.fst) ∧
    ((Stack.install env s tasks fs).outcomes.map Prod.fst = s.task_names) ∧
    (s.check_installation_status (Stack.install env s tasks fs).tasks
      = .ok (Stack.install env s tasks fs).stack) ∧
    (∀ n, (n, true) ∈ (Stack.install env s tasks fs).outcomes →
      taskInstalledIn (Stack.install env s tasks fs).tasks n = true) := by
  rcases check_status_always_ok s
    (stackOpLoop (Task.install env) s.task_names tasks fs).1 with ⟨s', hs'⟩
  by_cases hemp : (stackOpLoop (Task.install env) s.task_names tasks fs).2.2.1.isEmpty
  · have hval : Stack.install env s tasks fs =
        ⟨.ok (), s', (stackOpLoop (Task.install env) s.task_names tasks fs).1,
         (stackOpLoop (Task.install env) s.task_names tasks fs).2.1,
         (stackOpLoop (Task.install env) s.task_names tasks fs).2.2.1,
         (stackOpLoop (Task.install env) s.task_names tasks fs).2.2.2⟩ := by
      unfold Stack.install
      dsimp only
      rw [hs']
      dsimp only
      rw [if_pos hemp]
    rw [hval]
    have hnil : (stackOpLoop (Task.install env) s.task_names tasks fs).2.2.1 = [] :=
      List.isEmpty_iff.mp hemp
    refine ⟨by rw [if_pos hnil], ?_, ?_, ?_, ?_, ?_⟩
    · intro n hn habs
      exact stackOpLoop_absent_failed env s.task_names tasks fs n hn habs
    · exact stackOpLoop_failed_eq_outcomes _ s.task_names tasks fs
    · exact stackOpLoop_visits _ s.task_names tasks fs
    · exact hs'
    · intro n hn
      exact stackOpLoop_outcome_installed env s.task_names tasks fs n hn
  · have hval : Stack.install env s tasks fs =
        ⟨.error (.stackFailed
            (stackOpLoop (Task.install env) s.task_names tasks fs).2.2.1.length
            s.task_names.length s.name
            (stackOpLoop (Task.install env) s.task_names tasks fs).2.2.1),
         s', (stackOpLoop (Task.install env) s.task_names tasks fs).1,
         (stackOpLoop (Task.install env) s.task_names tasks fs).2.1,
         (stackOpLoop (Task.install env) s.task_names tasks fs).2.2.1,
         (stackOpLoop (Task.install env) s.task_names tasks fs).2.2.2⟩ := by
      unfold Stack.install
      dsimp only
      rw [hs']
      dsimp only
      rw [if_neg hemp]
    rw [hval]
    have hnn : ¬(stackOpLoop (Task.install env) s.task_names tasks fs).2.2.1 = [] :=
      fun hh => hemp (by simp [hh])
    refine ⟨by rw [if_neg hnn], ?_, ?_, ?_, ?_, ?_⟩
    · intro n hn habs
      exact stackOpLoop_absent_failed env s.task_names tasks fs n hn habs
    · exact stackOpLoop_failed_eq_outcomes _ s.task_names tasks fs
    · exact stackOpLoop_visits _ s.task_names tasks fs
    · exact hs'
    · intro n hn
      exact stackOpLoop_outcome_installed env s.task_names tasks fs n hn

/-- A concrete environment for the C8 scenario: downloads succeed, the bash
install script succeeds only for task `a`, ansible and literal commands
fail. -/
def envScenario : Env :=
  ⟨fun _ => true, fun nm _ => nm == "a", fun _ _ => false, fun _ => false⟩

/-- The C8 scenario stack: members `a` (installs fine), `b` (absent from the
collection) and `c` (its install fails). -/
def stackScenario : Stack := { name := "s", task_names := ["a", "b", "c"] }

/-- The C8 scenario collection: tasks `a` and `c` only. -/
def tasksScenario : List Task :=
  [{ name := "a", script_type := .Bash }, { name := "c", script_type := .Bash }]

/-- Closed witness for C8: in the scenario, the missing member `b` is
recorded among the failures, the successfully installed member `a` stays
installed, and the operation reports the aggregate error with the failed
names and counts. -/
theorem stack_install_contract_witness :
    "b" ∈ (Stack.install envScenario stackScenario tasksScenario []).failed ∧
    taskInstalledIn (Stack.install envScenario stackScenario tasksScenario []).tasks
      "a" = true ∧
    (Stack.install envScenario stackScenario tasksScenario []).res
      = .error (.stackFailed 2 3 "s" ["b", "c"]) := by
  have h := stack_install_contract envScenario stackScenario tasksScenario []
  refine ⟨h.2.1 "b" (by decide) (by decide), h.2.2.2.2.2 "a" (by decide), ?_⟩
  rw [h.1]
  decide

end Galatea
